import Mathlib

/-!
A shallow embedding of `fedrec/utilities/registry.py` (EnvisEdge): a
name-based component registry with configuration-driven instantiation.

Python dictionaries are modelled as association lists with Python `dict`
semantics (`Dict`): lookup returns the first binding of a key, assignment
replaces an existing binding in place or appends a fresh one at the end.
The process-wide `LOOKUP_DICT = collections.defaultdict(dict)` becomes an
explicit `Store` value threaded through the operations; a `defaultdict`
access that materialises a missing bucket is modelled by `ddEnsure`.
Exceptions become the explicit error type `RegError`; calling a
constructor is modelled by returning the keyword-argument mapping the
constructor would receive (`InstResult.callArgs`), and the batched
superfluous-key diagnostic by `InstResult.warning`.
-/

namespace Registry

/-- A Python `dict` with string keys: an ordered list of key/value bindings. -/
structure Dict (α : Type) where
  entries : List (String × α)
deriving DecidableEq, Repr

/-- First binding of key `k` in an entry list (Python `d[k]` on success). -/
def findEntry {α : Type} : List (String × α) → String → Option α
  | [], _ => none
  | (k', v) :: rest, k => if k' = k then some v else findEntry rest k

/-- Python `d[k]`, as an `Option`. -/
def Dict.find? {α : Type} (d : Dict α) (k : String) : Option α :=
  findEntry d.entries k

/-- Python `k in d`. -/
def Dict.contains {α : Type} (d : Dict α) (k : String) : Bool :=
  (d.find? k).isSome

/-- Update of an entry list: replace the binding of `k` if present
(keeping its position, as Python dicts do), otherwise append. -/
def insertEntry {α : Type} : List (String × α) → String → α → List (String × α)
  | [], k, v => [(k, v)]
  | (k', v') :: rest, k, v =>
      if k' = k then (k, v) :: rest else (k', v') :: insertEntry rest k v

/-- Python `d[k] = v`. -/
def Dict.insert {α : Type} (d : Dict α) (k : String) (v : α) : Dict α :=
  ⟨insertEntry d.entries k v⟩

/-- The empty dict `{}`. -/
def Dict.empty {α : Type} : Dict α := ⟨[]⟩

/-- The dict update part of `{**d, **e}`: pour the bindings of `e` into `d`:
assign each binding of `e` into `d`, in order. -/
def Dict.insertAll {α : Type} (d e : Dict α) : Dict α :=
  e.entries.foldl (fun acc kv => acc.insert kv.1 kv.2) d

/-- The dict display `{**config, **kwargs}` (registry.py line 183):
a fresh dict holding the bindings of `config` updated by those of `kwargs`. -/
def mergeDicts {α : Type} (config kwargs : Dict α) : Dict α :=
  (Dict.empty.insertAll config).insertAll kwargs

/-- A Python dict has pairwise-distinct keys; association lists built by
hand must assume it where the value of a duplicated key matters. -/
def Dict.NodupKeys {α : Type} (d : Dict α) : Prop :=
  (d.entries.map Prod.fst).Nodup

instance {α : Type} (d : Dict α) : Decidable d.NodupKeys := by
  unfold Dict.NodupKeys; infer_instance

/-! ### Dict lemmas -/

theorem findEntry_insertEntry {α : Type} (l : List (String × α)) (k k' : String) (v : α) :
    findEntry (insertEntry l k v) k' = if k = k' then some v else findEntry l k' := by
  induction l with
  | nil => simp [insertEntry, findEntry]
  | cons hd tl ih =>
    obtain ⟨k0, v0⟩ := hd
    by_cases h0 : k0 = k
    · subst h0
      simp only [insertEntry, if_pos rfl, findEntry]
      by_cases h1 : k0 = k'
      · simp [h1]
      · simp [h1]
    · simp only [insertEntry, if_neg h0, findEntry]
      by_cases h1 : k0 = k'
      · have hkk : ¬ k = k' := fun hh => h0 (h1.trans hh.symm)
        simp [h1, hkk]
      · simp [h1, ih]

theorem Dict.find?_insert {α : Type} (d : Dict α) (k k' : String) (v : α) :
    (d.insert k v).find? k' = if k = k' then some v else d.find? k' :=
  findEntry_insertEntry d.entries k k' v

theorem Dict.contains_insert {α : Type} (d : Dict α) (k k' : String) (v : α) :
    (d.insert k v).contains k' = (k = k' || d.contains k') := by
  simp only [Dict.contains, Dict.find?_insert]
  by_cases h : k = k' <;> simp [h]

theorem findEntry_some_mem {α : Type} (l : List (String × α)) (k : String) (v : α)
    (h : findEntry l k = some v) : (k, v) ∈ l := by
  induction l with
  | nil => simp [findEntry] at h
  | cons hd tl ih =>
    obtain ⟨k0, v0⟩ := hd
    simp only [findEntry] at h
    by_cases h0 : k0 = k
    · subst h0
      rw [if_pos rfl] at h
      injection h with h2
      subst h2
      exact List.mem_cons_self _ _
    · rw [if_neg h0] at h
      exact List.mem_cons_of_mem _ (ih h)

/-! ### Data model

Configuration values, parameter descriptors and constructor references.
A constructor reference (`Ctor`) models a Python class or callable: its
`module`/`clsName` give `obj.__module__` and `obj.__name__`, `params` is
`inspect.signature(obj).parameters` in declaration order, and
`isRegistrableSubclass` records `issubclass(obj, Registrable)`. -/

/-- A configuration value (arbitrary in Python; strings and integers
suffice for the observable behaviour of the registry). -/
inductive Value where
  | str (s : String)
  | int (n : Int)
deriving DecidableEq, Repr

/-- Python `inspect.Parameter.kind`. -/
inductive ParamKind where
  | positionalOnly
  | positionalOrKeyword
  | varPositional
  | keywordOnly
  | varKeyword
deriving DecidableEq, Repr

/-- One entry of `inspect.signature(callable).parameters`. -/
structure Param where
  name : String
  kind : ParamKind
deriving DecidableEq, Repr

/-- A constructor reference registered in the store. -/
structure Ctor where
  module : String
  clsName : String
  params : List Param
  isRegistrableSubclass : Bool
deriving DecidableEq, Repr

/-- The qualified identity `f"{obj.__module__}.{obj.__name__}"` (registry.py lines 60, 216, 222). -/
def typeName (c : Ctor) : String := c.module ++ "." ++ c.clsName

/-- The exceptions the registry raises (registry.py raises `AssertionError`,
`LookupError`, `KeyError` and `ValueError` with distinct messages; the
spec names them as listed here). -/
inductive RegError where
  | reservedKind (kind : String)
  | duplicateRegistration (name : String)
  | unknownKind (kind : String)
  | unknownName (key : Value)
  | missingNameField
  | unsupportedParamKind (name : String)
  | unknownClass (name : String)
  | notRegistrableSubclass
deriving DecidableEq, Repr

/-- The process-wide `LOOKUP_DICT`: kind (or `"class_map"`) to bucket. -/
def Store : Type := Dict (Dict Ctor)

instance : DecidableEq Store := by
  unfold Store; infer_instance

/-- The empty `LOOKUP_DICT` at process start. -/
def emptyStore : Store := Dict.empty

/-- The side effect of a `defaultdict` access `LOOKUP_DICT[k]`: materialise an
empty bucket for `k` when absent. -/
def ddEnsure (st : Store) (k : String) : Store :=
  if st.contains k then st else st.insert k Dict.empty

/-- The bucket currently stored under `k` (`{}` when absent): the value a
`defaultdict` access `LOOKUP_DICT[k]` yields. -/
def bucketOf (st : Store) (k : String) : Dict Ctor :=
  (Dict.find? st k).getD Dict.empty

/-! ### Registrar: `load` and its decorator (registry.py lines 25-62) -/

/-- The call `load(kind, name)` itself: assert `kind != "class_map"`, then
the two `defaultdict` accesses `LOOKUP_DICT[kind]` and
`LOOKUP_DICT["class_map"]` materialise both buckets. The `name` argument
is only captured for the decorator. -/
def load (st : Store) (kind _name : String) : Store × Except RegError Unit :=
  if kind = "class_map" then (st, .error (.reservedKind kind))
  else (ddEnsure (ddEnsure st kind) "class_map", .ok ())

/-- Applying the decorator returned by `load(kind, name)` to `obj`:
raise on a duplicate name, else write the bucket entry and the
`class_map` side-effect entry, and return `obj`. -/
def decorate (st : Store) (kind name : String) (obj : Ctor) : Store × Except RegError Ctor :=
  let registry := bucketOf st kind
  if registry.contains name then (st, .error (.duplicateRegistration name))
  else
    let st1 := st.insert kind (registry.insert name obj)
    let st2 := st1.insert "class_map" ((bucketOf st1 "class_map").insert (typeName obj) obj)
    (st2, .ok obj)

/-- Registration `@load(kind, name)` applied to `obj`: the `load` call followed by the
decorator application. -/
def register (st : Store) (kind name : String) (obj : Ctor) : Store × Except RegError Ctor :=
  match load st kind name with
  | (st1, .error e) => (st1, .error e)
  | (st1, .ok _) => decorate st1 kind name obj

/-! ### Resolver: `lookup` (registry.py lines 65-101) -/

/-- The `name` argument of `lookup`: a plain string or a configuration
mapping. -/
inductive NameOrConfig where
  | str (s : String)
  | cfg (d : Dict Value)
deriving DecidableEq, Repr

/-- Lines 94-97 of `lookup`: if the `name` argument is a mapping, the
effective name is the value under its `"name"` key (`KeyError` when that
key is absent). -/
def effectiveName : NameOrConfig → Except RegError Value
  | .str s => .ok (.str s)
  | .cfg d =>
      match d.find? "name" with
      | some v => .ok v
      | none => .error .missingNameField

/-- Resolution `lookup(kind, name)`: extract the effective name, then `KeyError`
when `kind` was never materialised in `LOOKUP_DICT`, then index the
bucket. The `in` check and the guarded indexing do not materialise
buckets. -/
def lookup (st : Store) (kind : String) (nameArg : NameOrConfig) : Except RegError Ctor :=
  match effectiveName nameArg with
  | .error e => .error e
  | .ok nv =>
      if st.contains kind then
        match nv with
        | .str s =>
            match (bucketOf st kind).find? s with
            | some c => .ok c
            | none => .error (.unknownName nv)
        | _ => .error (.unknownName nv)
      else .error (.unknownKind kind)

/-! ### Instantiator: `instantiate` and `construct` (registry.py lines 104-206)

Invoking the resolved constructor is modelled by recording the keyword
arguments it receives; the batched superfluous-key diagnostic of line 205
is the `warning` field (`none` when nothing is printed). -/

/-- The outcome of a successful `instantiate` call. -/
structure InstResult where
  callArgs : Dict Value
  warning : Option (Dict Value)
deriving DecidableEq, Repr

/-- The loop of lines 187-190: the first parameter whose kind is
`POSITIONAL_ONLY` or `VAR_POSITIONAL`, in signature order. -/
def findBadParam (c : Ctor) : Option Param :=
  c.params.find? fun p =>
    p.kind == ParamKind.positionalOnly || p.kind == ParamKind.varPositional

/-- Line 192-193: `any(param.kind == VAR_KEYWORD for ...)`. -/
def hasVarKeyword (c : Ctor) : Bool :=
  c.params.any fun p => p.kind == ParamKind.varKeyword

/-- The keys of `signature.parameters` (`key in signature.parameters`). -/
def paramNames (c : Ctor) : List String := c.params.map Param.name

/-- The `merged.pop(key)` half of the loop of lines 199-203: keep exactly
the entries whose key is a declared parameter name. -/
def popExtraneous {α : Type} (declared : List String) : List (String × α) → List (String × α)
  | [] => []
  | (k, v) :: rest =>
      if declared.contains k then (k, v) :: popExtraneous declared rest
      else popExtraneous declared rest

/-- The `missing[key] = merged[key]` half of the loop of lines 199-203:
the entries that are neither declared parameters nor listed in
`unused_keys`, in iteration order. -/
def collectMissing {α : Type} (declared unused : List String) :
    List (String × α) → List (String × α)
  | [] => []
  | (k, v) :: rest =>
      if !declared.contains k && !unused.contains k
      then (k, v) :: collectMissing declared unused rest
      else collectMissing declared unused rest

/-- Instantiation `instantiate(callable, config, unused_keys, **kwargs)`:
merge, validate parameter kinds, short-circuit on a `VAR_KEYWORD`
catch-all, else pop extraneous keys (warning about the undeclared ones)
and call with the filtered mapping. -/
def instantiate (c : Ctor) (config : Dict Value) (unused : List String)
    (kwargs : Dict Value) : Except RegError InstResult :=
  let merged := mergeDicts config kwargs
  match findBadParam c with
  | some p => .error (.unsupportedParamKind p.name)
  | none =>
      if hasVarKeyword c then .ok ⟨merged, none⟩
      else
        let missing := collectMissing (paramNames c) unused merged.entries
        let filtered := popExtraneous (paramNames c) merged.entries
        .ok ⟨⟨filtered⟩, if missing.isEmpty then none else some ⟨missing⟩⟩

/-- The `config` argument of `construct`: a plain name string or a
configuration mapping. -/
inductive ConfigArg where
  | str (s : String)
  | dict (d : Dict Value)
deriving DecidableEq, Repr

/-- Lines 139-140: a string config becomes the dict binding the key name to it. -/
def configToDict : ConfigArg → Dict Value
  | .str s => ⟨[("name", Value.str s)]⟩
  | .dict d => d

/-- Construction `construct(kind, config, unused_keys, **kwargs)`: normalise a string
config, resolve via `lookup`, then `instantiate` with the key name appended
to the unused keys. -/
def construct (st : Store) (kind : String) (config : ConfigArg) (unused : List String)
    (kwargs : Dict Value) : Except RegError InstResult :=
  let cfg := configToDict config
  match lookup st kind (.cfg cfg) with
  | .error e => .error e
  | .ok c => instantiate c cfg (unused ++ ["name"]) kwargs

/-! ### Identity capability: `Registrable` (registry.py lines 209-238) -/

namespace Registrable

/-- Registration `Registrable.register_class_ref(class_ref, name=None)`: with `name`
omitted, assert the identity capability and derive the name from
`type_name()`; then write the `class_map` bucket directly (the
`defaultdict` access materialises it when absent). -/
def register_class_ref (st : Store) (classRef : Ctor) (name : Option String) :
    Store × Except RegError Ctor :=
  match name with
  | none =>
      if classRef.isRegistrableSubclass then
        (st.insert "class_map" ((bucketOf st "class_map").insert (typeName classRef) classRef),
         .ok classRef)
      else (st, .error .notRegistrableSubclass)
  | some n =>
      (st.insert "class_map" ((bucketOf st "class_map").insert n classRef), .ok classRef)

/-- Reverse lookup `Registrable.lookup_class_ref(class_name)`: `KeyError` when the
identity is absent from the `class_map` bucket, else the stored
constructor. (The `defaultdict` access would also materialise an empty
`class_map` bucket; that side effect is unobservable to the lookups
modelled here and is omitted.) -/
def lookup_class_ref (st : Store) (className : String) : Except RegError Ctor :=
  match (bucketOf st "class_map").find? className with
  | some c => .ok c
  | none => .error (.unknownClass className)

end Registrable

/-! ### Object-identity model of `instantiate`/`construct`

The frame claim (`construct`/`instantiate` never mutate the configuration
dict of the caller in place) needs dict *object identity*: dicts live in
a heap of cells, the config of the caller is an address, the dict display of
line 183 allocates a fresh cell, and `merged.pop(key)` writes back to
that fresh cell only. -/

/-- A heap of dict objects; an address is an index into `cells`. -/
structure Heap where
  cells : List (Dict Value)
deriving DecidableEq, Repr

/-- Read cell `a` (out-of-range reads give `{}`; never exercised). -/
def hget : List (Dict Value) → Nat → Dict Value
  | [], _ => Dict.empty
  | d :: _, 0 => d
  | _ :: rest, n + 1 => hget rest n

/-- Overwrite cell `a` in place. -/
def hset : List (Dict Value) → Nat → Dict Value → List (Dict Value)
  | [], _, _ => []
  | _ :: rest, 0, d => d :: rest
  | e :: rest, n + 1, d => e :: hset rest n d

def Heap.get (h : Heap) (a : Nat) : Dict Value := hget h.cells a

def Heap.set (h : Heap) (a : Nat) (d : Dict Value) : Heap := ⟨hset h.cells a d⟩

/-- Allocate a fresh dict object, returning its address. -/
def Heap.alloc (h : Heap) (d : Dict Value) : Heap × Nat :=
  (⟨h.cells ++ [d]⟩, h.cells.length)

/-- The function `instantiate` with dict identity explicit: `configAddr` is the
config object of the caller; line 183 allocates `merged` fresh, and the
pops of line 203 write back to the cell of `merged` only. -/
def instantiateH (h : Heap) (c : Ctor) (configAddr : Nat) (unused : List String)
    (kwargs : Dict Value) : Heap × Except RegError InstResult :=
  let (h1, ma) := h.alloc (mergeDicts (h.get configAddr) kwargs)
  match findBadParam c with
  | some p => (h1, .error (.unsupportedParamKind p.name))
  | none =>
      if hasVarKeyword c then (h1, .ok ⟨h1.get ma, none⟩)
      else
        let merged := h1.get ma
        let missing := collectMissing (paramNames c) unused merged.entries
        let filtered : Dict Value := ⟨popExtraneous (paramNames c) merged.entries⟩
        (h1.set ma filtered,
         .ok ⟨filtered, if missing.isEmpty then none else some ⟨missing⟩⟩)

/-- The `config` argument of `construct`, heap view: a plain string or
the address of the configuration dict object of the caller. -/
inductive HeapConfigArg where
  | str (s : String)
  | ref (a : Nat)
deriving DecidableEq, Repr

/-- The function `construct` with dict identity explicit: a string config allocates
the fresh name-binding dict of line 140; a mapping config is
passed through by reference to `instantiate`. -/
def constructH (h : Heap) (st : Store) (kind : String) (config : HeapConfigArg)
    (unused : List String) (kwargs : Dict Value) : Heap × Except RegError InstResult :=
  match config with
  | .str s =>
      let h1 := (h.alloc ⟨[("name", Value.str s)]⟩).1
      let a := (h.alloc ⟨[("name", Value.str s)]⟩).2
      match lookup st kind (.cfg (h1.get a)) with
      | .error e => (h1, .error e)
      | .ok c => instantiateH h1 c a (unused ++ ["name"]) kwargs
  | .ref a =>
      match lookup st kind (.cfg (h.get a)) with
      | .error e => (h, .error e)
      | .ok c => instantiateH h c a (unused ++ ["name"]) kwargs

/-! ### Concrete objects used by witnesses and counterexamples -/

/-- A constructor with keyword-capable parameters `a` and `b`. -/
def ctorAB : Ctor :=
  ⟨"m", "AB", [⟨"a", ParamKind.positionalOrKeyword⟩, ⟨"b", ParamKind.positionalOrKeyword⟩],
   false⟩

/-- A constructor whose only parameter is a `**kwargs` catch-all. -/
def ctorCatchAll : Ctor := ⟨"m", "CatchAll", [⟨"kwargs", ParamKind.varKeyword⟩], false⟩

/-- A constructor with a positional-only parameter. -/
def ctorPosOnly : Ctor := ⟨"m", "PosOnly", [⟨"x", ParamKind.positionalOnly⟩], false⟩

/-- A type declaring the identity capability (`Registrable` subclass). -/
def ctorReg : Ctor := ⟨"m", "Reg", [], true⟩

/-- A second, distinct type declaring the identity capability. -/
def ctorReg2 : Ctor := ⟨"m", "Reg2", [], true⟩

/-- A type without the identity capability. -/
def ctorPlain : Ctor := ⟨"m", "Plain", [], false⟩

/-- A store holding `ctorAB` under `("model", "x")`. -/
def storeAB : Store := (register emptyStore "model" "x" ctorAB).1

/-- A store holding the catch-all constructor under `("model", "x")`. -/
def storeCatchAll : Store := (register emptyStore "model" "x" ctorCatchAll).1

/-! ### Heap lemmas -/

theorem hget_append_lt (l : List (Dict Value)) (d : Dict Value) (a : Nat)
    (ha : a < l.length) : hget (l ++ [d]) a = hget l a := by
  induction l generalizing a with
  | nil => simp at ha
  | cons hd tl ih =>
    cases a with
    | zero => rfl
    | succ n =>
      simp only [List.cons_append, hget]
      exact ih n (by simpa using ha)

theorem hget_hset_ne (l : List (Dict Value)) (a b : Nat) (d : Dict Value)
    (hab : a ≠ b) : hget (hset l b d) a = hget l a := by
  induction l generalizing a b with
  | nil => rfl
  | cons hd tl ih =>
    cases b with
    | zero =>
      cases a with
      | zero => exact absurd rfl hab
      | succ n => rfl
    | succ m =>
      cases a with
      | zero => rfl
      | succ n =>
        simp only [hset, hget]
        exact ih n m (fun he => hab (by rw [he]))

/-- The operation `instantiateH` leaves every pre-existing heap cell unchanged. -/
theorem instantiateH_frame (h : Heap) (c : Ctor) (a b : Nat) (unused : List String)
    (kwargs : Dict Value) (hb : b < h.cells.length) :
    ((instantiateH h c a unused kwargs).1).get b = h.get b := by
  unfold instantiateH Heap.alloc
  cases hbad : findBadParam c with
  | some p =>
    simpa using hget_append_lt h.cells _ b hb
  | none =>
    by_cases hvk : hasVarKeyword c
    · simp only [hvk, if_pos]
      simpa using hget_append_lt h.cells _ b hb
    · simp only [hvk, if_neg, Bool.not_eq_true]
      simp only [Heap.get, Heap.set]
      rw [hget_hset_ne _ b h.cells.length _ (Nat.ne_of_lt hb)]
      exact hget_append_lt h.cells _ b hb

theorem hget_append_self (l : List (Dict Value)) (d : Dict Value) :
    hget (l ++ [d]) l.length = d := by
  induction l with
  | nil => rfl
  | cons hd tl ih => simpa [hget] using ih

/-- The operation `constructH` leaves every pre-existing heap cell unchanged. -/
theorem constructH_frame (h : Heap) (st : Store) (kind : String) (cfg : HeapConfigArg)
    (unused : List String) (kwargs : Dict Value) (b : Nat)
    (hb : b < h.cells.length) :
    ((constructH h st kind cfg unused kwargs).1).get b = h.get b := by
  cases cfg with
  | ref a =>
    simp only [constructH]
    cases hl : lookup st kind (.cfg (h.get a)) with
    | error e => simp [hl]
    | ok c =>
      simp only [hl]
      exact instantiateH_frame h c a b (unused ++ ["name"]) kwargs hb
  | str s =>
    simp only [constructH]
    have hb1 : b < ((h.alloc ⟨[("name", Value.str s)]⟩).1).cells.length := by
      unfold Heap.alloc
      simpa using Nat.lt_succ_of_lt hb
    have hback : ((h.alloc ⟨[("name", Value.str s)]⟩).1).get b = h.get b := by
      unfold Heap.alloc Heap.get
      exact hget_append_lt h.cells _ b hb
    cases hl : lookup st kind
        (.cfg (((h.alloc ⟨[("name", Value.str s)]⟩).1).get
          (h.alloc ⟨[("name", Value.str s)]⟩).2)) with
    | error e => simpa [hl] using hback
    | ok c =>
      simp only [hl]
      rw [instantiateH_frame _ c _ b (unused ++ ["name"]) kwargs hb1]
      exact hback

/-! ### Dict loop lemmas -/

theorem findEntry_popExtraneous {α : Type} (declared : List String)
    (l : List (String × α)) (k : String) :
    findEntry (popExtraneous declared l) k =
      if declared.contains k then findEntry l k else none := by
  induction l with
  | nil => simp [popExtraneous, findEntry]
  | cons hd tl ih =>
    obtain ⟨k0, v0⟩ := hd
    simp only [popExtraneous]
    by_cases h0 : declared.contains k0
    · rw [if_pos h0]
      simp only [findEntry]
      by_cases h1 : k0 = k
      · subst h1
        rw [if_pos rfl, if_pos h0, if_pos rfl]
      · rw [if_neg h1, if_neg h1, ih]
    · rw [if_neg h0, ih]
      simp only [findEntry]
      by_cases h1 : k0 = k
      · subst h1
        rw [if_neg h0, if_neg h0]
      · rw [if_neg h1]

theorem findEntry_collectMissing {α : Type} (declared unused : List String)
    (l : List (String × α)) (k : String) :
    findEntry (collectMissing declared unused l) k =
      if !declared.contains k && !unused.contains k then findEntry l k else none := by
  induction l with
  | nil => simp [collectMissing, findEntry]
  | cons hd tl ih =>
    obtain ⟨k0, v0⟩ := hd
    simp only [collectMissing]
    by_cases h0 : !declared.contains k0 && !unused.contains k0
    · rw [if_pos h0]
      simp only [findEntry]
      by_cases h1 : k0 = k
      · subst h1
        rw [if_pos rfl, if_pos h0, if_pos rfl]
      · rw [if_neg h1, if_neg h1, ih]
    · rw [if_neg h0, ih]
      simp only [findEntry]
      by_cases h1 : k0 = k
      · subst h1
        rw [if_neg h0, if_neg h0]
      · rw [if_neg h1]

theorem collectMissing_eq_nil {α : Type} (declared unused : List String)
    (l : List (String × α)) :
    collectMissing declared unused l = [] ↔
      ∀ kv ∈ l, declared.contains kv.1 = true ∨ unused.contains kv.1 = true := by
  induction l with
  | nil => simp [collectMissing]
  | cons hd tl ih =>
    obtain ⟨k0, v0⟩ := hd
    simp only [collectMissing]
    by_cases h0 : !declared.contains k0 && !unused.contains k0
    · rw [if_pos h0]
      simp only [Bool.and_eq_true, Bool.not_eq_true'] at h0
      constructor
      · intro h; exact absurd h (by simp)
      · intro h
        rcases h (k0, v0) (List.mem_cons_self _ _) with h1 | h1
        · rw [h0.1] at h1; simp at h1
        · rw [h0.2] at h1; simp at h1
    · rw [if_neg h0, ih]
      have hd0 : declared.contains k0 = true ∨ unused.contains k0 = true := by
        by_cases h1 : declared.contains k0
        · exact Or.inl h1
        · by_cases h2 : unused.contains k0
          · exact Or.inr h2
          · simp only [Bool.not_eq_true] at h1 h2
            exact absurd (by rw [h1, h2]; rfl) h0
      constructor
      · intro h kv hkv
        rcases List.mem_cons.mp hkv with rfl | hkv2
        · exact hd0
        · exact h kv hkv2
      · intro h kv hkv
        exact h kv (List.mem_cons_of_mem _ hkv)

theorem findEntry_eq_none_of_not_mem {α : Type} (l : List (String × α)) (k : String)
    (h : k ∉ l.map Prod.fst) : findEntry l k = none := by
  induction l with
  | nil => rfl
  | cons hd tl ih =>
    obtain ⟨k0, v0⟩ := hd
    simp only [List.map_cons, List.mem_cons] at h
    push_neg at h
    simp only [findEntry]
    rw [if_neg (fun he => h.1 he.symm)]
    exact ih h.2

theorem findEntry_foldl_insert {α : Type} (d : Dict α) (l : List (String × α)) (k : String)
    (hl : (l.map Prod.fst).Nodup) :
    (l.foldl (fun acc kv => acc.insert kv.1 kv.2) d).find? k =
      match findEntry l k with
      | some v => some v
      | none => d.find? k := by
  induction l generalizing d with
  | nil => simp [findEntry]
  | cons hd tl ih =>
    obtain ⟨k0, v0⟩ := hd
    simp only [List.map_cons, List.nodup_cons] at hl
    simp only [List.foldl_cons]
    rw [ih (d.insert k0 v0) hl.2]
    simp only [findEntry]
    by_cases h1 : k0 = k
    · subst h1
      rw [findEntry_eq_none_of_not_mem tl k0 hl.1]
      simp [Dict.find?_insert]
    · rw [if_neg h1]
      cases hft : findEntry tl k <;> simp [Dict.find?_insert, h1]

/-! ### Store lemmas -/

theorem bucketOf_insert (st : Store) (k k' : String) (b : Dict Ctor) :
    bucketOf (st.insert k b) k' = if k = k' then b else bucketOf st k' := by
  unfold bucketOf
  rw [Dict.find?_insert]
  by_cases h : k = k' <;> simp [h]

theorem bucketOf_ddEnsure (st : Store) (k k' : String) :
    bucketOf (ddEnsure st k) k' = bucketOf st k' := by
  unfold ddEnsure
  by_cases hc : st.contains k
  · rw [if_pos hc]
  · rw [if_neg hc, bucketOf_insert]
    by_cases h : k = k'
    · subst h
      rw [if_pos rfl]
      unfold bucketOf
      unfold Dict.contains at hc
      rw [Option.not_isSome_iff_eq_none] at hc
      rw [hc]
      rfl
    · rw [if_neg h]

theorem contains_ddEnsure (st : Store) (k k' : String) :
    (ddEnsure st k).contains k' = (k = k' || st.contains k') := by
  unfold ddEnsure
  by_cases hc : st.contains k
  · rw [if_pos hc]
    by_cases h : k = k'
    · subst h; simp [hc]
    · simp [h]
  · rw [if_neg hc, Dict.contains_insert]

theorem Dict.contains_of_find? {α : Type} (d : Dict α) (k : String) (v : α)
    (h : d.find? k = some v) : d.contains k = true := by
  unfold Dict.contains
  rw [h]
  rfl

theorem Dict.find?_eq_none_of_contains_eq_false {α : Type} (d : Dict α) (k : String)
    (h : d.contains k = false) : d.find? k = none := by
  unfold Dict.contains at h
  cases hf : d.find? k with
  | none => rfl
  | some v => rw [hf] at h; simp at h

theorem register_eq (st : Store) (kind name : String) (obj : Ctor)
    (hk : kind ≠ "class_map") :
    register st kind name obj =
      decorate (ddEnsure (ddEnsure st kind) "class_map") kind name obj := by
  unfold register load
  rw [if_neg hk]

theorem register_duplicate (st : Store) (kind name : String) (obj : Ctor)
    (hk : kind ≠ "class_map") (hd : (bucketOf st kind).contains name = true) :
    register st kind name obj =
      (ddEnsure (ddEnsure st kind) "class_map",
       .error (.duplicateRegistration name)) := by
  rw [register_eq st kind name obj hk]
  simp only [decorate, bucketOf_ddEnsure]
  rw [if_pos hd]

theorem register_success (st : Store) (kind name : String) (obj : Ctor)
    (hk : kind ≠ "class_map") (hd : (bucketOf st kind).contains name = false) :
    (register st kind name obj).2 = .ok obj ∧
    bucketOf (register st kind name obj).1 kind = (bucketOf st kind).insert name obj ∧
    (∀ k', k' ≠ kind → k' ≠ "class_map" →
       bucketOf (register st kind name obj).1 k' = bucketOf st k') := by
  have hd' : ¬ (bucketOf st kind).contains name = true := by
    rw [hd]; exact fun h => Bool.noConfusion h
  rw [register_eq st kind name obj hk]
  simp only [decorate, bucketOf_ddEnsure]
  rw [if_neg hd']
  refine ⟨rfl, ?_, ?_⟩
  · rw [bucketOf_insert, if_neg (fun h => hk h.symm), bucketOf_insert, if_pos rfl]
  · intro k' hk1 hk2
    rw [bucketOf_insert, if_neg (fun h => hk2 h.symm), bucketOf_insert,
      if_neg (fun h => hk1 h.symm), bucketOf_ddEnsure, bucketOf_ddEnsure]

/-! ## Claims -/

/-- C1 (counterexample): the uniqueness/no-overwrite invariant does not
hold for every path writing to the store: two `register_class_ref` calls
under the same name both succeed, and the second silently overwrites the
entry the first one wrote under `"class_map"`. -/
theorem C1_counterexample_classmap_overwrite :
    (Registrable.register_class_ref emptyStore ctorReg (some "n")).2 = .ok ctorReg ∧
    Registrable.lookup_class_ref
      (Registrable.register_class_ref emptyStore ctorReg (some "n")).1 "n" = .ok ctorReg ∧
    (Registrable.register_class_ref
      (Registrable.register_class_ref emptyStore ctorReg (some "n")).1
      ctorReg2 (some "n")).2 = .ok ctorReg2 ∧
    Registrable.lookup_class_ref
      (Registrable.register_class_ref
        (Registrable.register_class_ref emptyStore ctorReg (some "n")).1
        ctorReg2 (some "n")).1 "n" = .ok ctorReg2 ∧
    ctorReg ≠ ctorReg2 := by
  refine ⟨rfl, rfl, rfl, rfl, ?_⟩
  decide

/-- C1 (amended): within an ordinary kind bucket names are unique and
registration never overwrites — a duplicate name is rejected with the
existing entry left intact, and a successful registration preserves every
other entry of that bucket; the `"class_map"` writes (the side effect of
the decorator and `register_class_ref`) insert unconditionally and can
overwrite, as the counterexample shows. -/
theorem C1_ordinary_bucket_never_overwrites (st : Store) (kind name : String)
    (obj c : Ctor) (hk : kind ≠ "class_map") :
    ((bucketOf st kind).find? name = some c →
       (register st kind name obj).2 = .error (.duplicateRegistration name) ∧
       (bucketOf (register st kind name obj).1 kind).find? name = some c) ∧
    ((bucketOf st kind).contains name = false →
       ∀ n' c', (bucketOf st kind).find? n' = some c' → n' ≠ name →
         (bucketOf (register st kind name obj).1 kind).find? n' = some c') := by
  constructor
  · intro hf
    rw [register_duplicate st kind name obj hk (Dict.contains_of_find? _ _ _ hf)]
    exact ⟨rfl, by rw [bucketOf_ddEnsure, bucketOf_ddEnsure]; exact hf⟩
  · intro hd n' c' hf hne
    obtain ⟨-, hb, -⟩ := register_success st kind name obj hk hd
    rw [hb, Dict.find?_insert, if_neg (fun h => hne h.symm)]
    exact hf

/-- C1 witness: registering `("model", "x")` again on `storeAB` is
rejected and `ctorAB` stays in place. -/
theorem C1_witness :
    (register storeAB "model" "x" ctorCatchAll).2 =
      .error (.duplicateRegistration "x") ∧
    (bucketOf (register storeAB "model" "x" ctorCatchAll).1 "model").find? "x" =
      some ctorAB :=
  (C1_ordinary_bucket_never_overwrites storeAB "model" "x" ctorCatchAll ctorAB
    (by decide)).1 (by decide)

/-- C2 (counterexample): for a resolved constructor that declares no
parameter named `"name"` but has a variadic-keyword catch-all, `construct`
does pass the name field of the configuration to the constructor. -/
theorem C2_counterexample_catchall_receives_name :
    (paramNames ctorCatchAll).contains "name" = false ∧
    hasVarKeyword ctorCatchAll = true ∧
    (match construct storeCatchAll "model" (.str "x") [] Dict.empty with
     | .ok r => r.callArgs.contains "name" = true
     | .error _ => False) := by
  refine ⟨by decide, rfl, ?_⟩
  have hres : construct storeCatchAll "model" (.str "x") [] Dict.empty =
      .ok ⟨⟨[("name", Value.str "x")]⟩, none⟩ := rfl
  rw [hres]
  decide

/-- C2 (amended): when the resolved constructor declares neither a
parameter named `"name"` nor a variadic-keyword parameter, `construct`
does not pass the name field of the configuration to the constructor; with a
variadic-keyword catch-all the entire merged mapping, name included, is
passed (counterexample). -/
theorem C2_name_not_passed_without_catchall (st : Store) (kind : String)
    (config : ConfigArg) (unused : List String) (kwargs : Dict Value)
    (c : Ctor) (r : InstResult)
    (hlook : lookup st kind (.cfg (configToDict config)) = .ok c)
    (hvk : hasVarKeyword c = false)
    (hname : (paramNames c).contains "name" = false)
    (hres : construct st kind config unused kwargs = .ok r) :
    r.callArgs.contains "name" = false := by
  simp only [construct] at hres
  rw [hlook] at hres
  cases hbad : findBadParam c with
  | some p =>
    simp only [instantiate, hbad] at hres
    exact Except.noConfusion hres
  | none =>
    simp only [instantiate, hbad, hvk, Bool.false_eq_true, if_false] at hres
    rw [Except.ok.injEq] at hres
    subst hres
    unfold Dict.contains Dict.find?
    rw [findEntry_popExtraneous, if_neg (by rw [hname]; exact fun h => Bool.noConfusion h)]
    rfl

/-- C2 witness: constructing `ctorAB` from `{"name": "x", "a": 1, "b": 2}`
passes only `a` and `b`. -/
theorem C2_witness :
    (InstResult.mk ⟨[("a", Value.int 1), ("b", Value.int 2)]⟩ none).callArgs.contains
      "name" = false :=
  C2_name_not_passed_without_catchall storeAB "model"
    (.dict ⟨[("name", Value.str "x"), ("a", Value.int 1), ("b", Value.int 2)]⟩)
    [] Dict.empty ctorAB
    (InstResult.mk ⟨[("a", Value.int 1), ("b", Value.int 2)]⟩ none)
    (by rfl) (by rfl) (by rfl) (by rfl)

/-- C3: the merged mapping of `instantiate` (`{**config, **kwargs}`, computed
by `mergeDicts`) is the right-biased merge: a key only in `config` keeps
the value from `config`, a key only in the overrides keeps the override value,
and on a conflict the explicit keyword override wins. -/
theorem C3_merge_right_biased (config kwargs : Dict Value) (k : String)
    (hc : config.NodupKeys) (hk : kwargs.NodupKeys) :
    (mergeDicts config kwargs).find? k =
      match kwargs.find? k with
      | some v => some v
      | none => config.find? k := by
  unfold mergeDicts Dict.insertAll
  rw [findEntry_foldl_insert _ kwargs.entries k hk]
  rw [findEntry_foldl_insert _ config.entries k hc]
  simp only [Dict.find?, Dict.empty, findEntry]
  cases hkf : findEntry kwargs.entries k with
  | some v => rfl
  | none =>
    cases hcf : findEntry config.entries k with
    | some v => rfl
    | none => rfl

/-- C3 witness: the example of the spec — the override `b=99` wins over
`b=2` from the configuration, and `a` keeps the configured value. -/
theorem C3_witness :
    (mergeDicts ⟨[("a", Value.int 1), ("b", Value.int 2)]⟩
        ⟨[("b", Value.int 99)]⟩).find? "b" = some (Value.int 99) ∧
    (mergeDicts ⟨[("a", Value.int 1), ("b", Value.int 2)]⟩
        ⟨[("b", Value.int 99)]⟩).find? "a" = some (Value.int 1) := by
  have hb := C3_merge_right_biased ⟨[("a", Value.int 1), ("b", Value.int 2)]⟩
    ⟨[("b", Value.int 99)]⟩ "b" (by decide) (by decide)
  have ha := C3_merge_right_biased ⟨[("a", Value.int 1), ("b", Value.int 2)]⟩
    ⟨[("b", Value.int 99)]⟩ "a" (by decide) (by decide)
  exact ⟨hb.trans (by decide), ha.trans (by decide)⟩

/-- C4: on a constructor without a variadic-keyword parameter (whose
other parameters are all named, cf. C5), `instantiate` succeeds, every
merged key that is not a declared parameter name is removed from the
mapping passed to the constructor — whether or not it is in
`unused_keys` — exactly the removed keys absent from `unused_keys` make
up the single batched warning, and no warning is emitted when that set
is empty. -/
theorem C4_extraneous_removed_and_batched (c : Ctor) (config : Dict Value)
    (unused : List String) (kwargs : Dict Value)
    (hbad : findBadParam c = none) (hvk : hasVarKeyword c = false) :
    ∃ r, instantiate c config unused kwargs = .ok r ∧
      (∀ k, r.callArgs.find? k =
         if (paramNames c).contains k
         then (mergeDicts config kwargs).find? k else none) ∧
      (match r.warning with
       | none => ∀ kv ∈ (mergeDicts config kwargs).entries,
           (paramNames c).contains kv.1 = true ∨ unused.contains kv.1 = true
       | some m => m.entries ≠ [] ∧ ∀ k, m.find? k =
           if !(paramNames c).contains k && !unused.contains k
           then (mergeDicts config kwargs).find? k else none) := by
  simp only [instantiate, hbad, hvk, Bool.false_eq_true, if_false]
  refine ⟨_, rfl, ?_, ?_⟩
  · intro k
    exact findEntry_popExtraneous (paramNames c) (mergeDicts config kwargs).entries k
  · cases hm : collectMissing (paramNames c) unused (mergeDicts config kwargs).entries with
    | nil =>
      simp only [List.isEmpty_nil, if_true]
      intro kv hkv
      exact (collectMissing_eq_nil (paramNames c) unused
        (mergeDicts config kwargs).entries).mp hm kv hkv
    | cons hd tl =>
      simp only [List.isEmpty_cons, Bool.false_eq_true, if_false]
      refine ⟨List.cons_ne_nil hd tl, ?_⟩
      intro k
      rw [← hm]
      exact findEntry_collectMissing (paramNames c) unused
        (mergeDicts config kwargs).entries k

/-- C4 witness: the example of the spec — `c` is neither a parameter of
`ctorAB` nor declared unused, the call succeeds, `c` is removed and `a`
kept. -/
theorem C4_witness :
    ∃ r, instantiate ctorAB
        ⟨[("a", Value.int 1), ("b", Value.int 2), ("c", Value.int 3)]⟩
        [] Dict.empty = Except.ok r ∧
      r.callArgs.find? "c" = none ∧
      r.callArgs.find? "a" = some (Value.int 1) := by
  obtain ⟨r, h1, h2, -⟩ := C4_extraneous_removed_and_batched ctorAB
    ⟨[("a", Value.int 1), ("b", Value.int 2), ("c", Value.int 3)]⟩ [] Dict.empty rfl rfl
  refine ⟨r, h1, ?_, ?_⟩
  · rw [h2 "c"]
    decide
  · rw [h2 "a"]
    decide

/-- C5: a constructor declaring any positional-only or variadic-positional
parameter makes `instantiate` raise `UnsupportedParameterKindError`
(naming an offending parameter) instead of invoking the constructor,
whatever the configuration, unused keys and overrides are. -/
theorem C5_positional_params_rejected (c : Ctor) (config : Dict Value)
    (unused : List String) (kwargs : Dict Value) (p : Param) (hp : p ∈ c.params)
    (hk : p.kind = ParamKind.positionalOnly ∨ p.kind = ParamKind.varPositional) :
    ∃ q, q ∈ c.params ∧
      (q.kind = ParamKind.positionalOnly ∨ q.kind = ParamKind.varPositional) ∧
      instantiate c config unused kwargs = .error (.unsupportedParamKind q.name) := by
  cases hbad : findBadParam c with
  | none =>
    exfalso
    unfold findBadParam at hbad
    have hnone := List.find?_eq_none.mp hbad p hp
    apply hnone
    rcases hk with h | h <;> simp [h]
  | some q =>
    have hq := hbad
    unfold findBadParam at hq
    refine ⟨q, List.mem_of_find?_eq_some hq, ?_, ?_⟩
    · have hpred := List.find?_some hq
      simp only [Bool.or_eq_true, beq_iff_eq] at hpred
      exact hpred
    · simp only [instantiate, hbad]

/-- C5 witness: the positional-only constructor is rejected even on a
configuration naming its parameter. -/
theorem C5_witness :
    ∃ q, q ∈ ctorPosOnly.params ∧
      (q.kind = ParamKind.positionalOnly ∨ q.kind = ParamKind.varPositional) ∧
      instantiate ctorPosOnly ⟨[("x", Value.int 1)]⟩ [] Dict.empty =
        Except.error (RegError.unsupportedParamKind q.name) :=
  C5_positional_params_rejected ctorPosOnly ⟨[("x", Value.int 1)]⟩ [] Dict.empty
    ⟨"x", ParamKind.positionalOnly⟩ (by decide) (Or.inl rfl)

/-- C6: `lookup` on a kind absent from the store raises `UnknownKindError`;
on a present kind with an absent name it raises `UnknownNameError`; the
two errors are distinct; and for a registered `(kind, name)`, looking up
by name string and by a mapping whose `"name"` field is that string
return the identical constructor reference. -/
theorem C6_lookup_error_discrimination (st : Store) (kind : String) :
    (st.contains kind = false →
       ∀ s, lookup st kind (.str s) = .error (.unknownKind kind)) ∧
    (st.contains kind = true →
       ∀ s, (bucketOf st kind).contains s = false →
         lookup st kind (.str s) = .error (.unknownName (Value.str s))) ∧
    (∀ k v, RegError.unknownKind k ≠ RegError.unknownName v) ∧
    (∀ s c d, st.contains kind = true →
       (bucketOf st kind).find? s = some c →
       d.find? "name" = some (Value.str s) →
       lookup st kind (.str s) = .ok c ∧ lookup st kind (.cfg d) = .ok c) := by
  have hstr : ∀ s, lookup st kind (.str s) =
      if st.contains kind then
        match (bucketOf st kind).find? s with
        | some c => Except.ok c
        | none => Except.error (.unknownName (Value.str s))
      else Except.error (.unknownKind kind) := by
    intro s
    simp only [lookup, effectiveName]
  have hcfg : ∀ d s, d.find? "name" = some (Value.str s) →
      lookup st kind (.cfg d) = lookup st kind (.str s) := by
    intro d s hn
    simp only [lookup, effectiveName, hn]
  refine ⟨?_, ?_, ?_, ?_⟩
  · intro hc s
    rw [hstr s, if_neg (by rw [hc]; exact fun h => Bool.noConfusion h)]
  · intro hc s hs
    rw [hstr s, if_pos hc, Dict.find?_eq_none_of_contains_eq_false _ _ hs]
  · intro k v h
    exact RegError.noConfusion h
  · intro s c d hc hf hn
    have h1 : lookup st kind (.str s) = .ok c := by
      rw [hstr s, if_pos hc, hf]
    exact ⟨h1, by rw [hcfg d s hn]; exact h1⟩

/-- C6 witness: on `storeAB`, an unregistered kind, an absent name, and
the two lookup styles for the registered `("model", "x")`. -/
theorem C6_witness :
    lookup storeAB "other" (.str "x") = .error (.unknownKind "other") ∧
    lookup storeAB "model" (.str "z") = .error (.unknownName (Value.str "z")) ∧
    lookup storeAB "model" (.str "x") = .ok ctorAB ∧
    lookup storeAB "model"
      (.cfg ⟨[("name", Value.str "x"), ("extra", Value.int 7)]⟩) = .ok ctorAB := by
  refine ⟨?_, ?_, ?_⟩
  · exact (C6_lookup_error_discrimination storeAB "other").1 (by decide) "x"
  · exact (C6_lookup_error_discrimination storeAB "model").2.1 (by decide) "z" (by decide)
  · have h := (C6_lookup_error_discrimination storeAB "model").2.2.2 "x" ctorAB
      ⟨[("name", Value.str "x"), ("extra", Value.int 7)]⟩ (by decide) (by decide) (by decide)
    exact h

/-- C7: the decorator rejects a duplicate `(kind, name)` with
`DuplicateRegistrationError` and the existing entry stays; the same name
registers independently under two different kinds; and registering under
the reserved kind `"class_map"` raises `ReservedKindError`, leaving the
store untouched. -/
theorem C7_registration_guards (st : Store) (kind kind2 name : String)
    (obj obj2 c : Ctor) (hk : kind ≠ "class_map") :
    ((bucketOf st kind).find? name = some c →
       (register st kind name obj).2 = .error (.duplicateRegistration name) ∧
       (bucketOf (register st kind name obj).1 kind).find? name = some c) ∧
    (kind2 ≠ "class_map" → kind2 ≠ kind →
       (bucketOf st kind).contains name = false →
       (bucketOf st kind2).contains name = false →
       (register st kind name obj).2 = .ok obj ∧
       (register (register st kind name obj).1 kind2 name obj2).2 = .ok obj2 ∧
       (bucketOf (register (register st kind name obj).1 kind2 name obj2).1 kind).find?
         name = some obj ∧
       (bucketOf (register (register st kind name obj).1 kind2 name obj2).1 kind2).find?
         name = some obj2) ∧
    ((register st "class_map" name obj).2 = .error (.reservedKind "class_map") ∧
     (register st "class_map" name obj).1 = st) := by
  refine ⟨?_, ?_, rfl, rfl⟩
  · intro hf
    rw [register_duplicate st kind name obj hk (Dict.contains_of_find? _ _ _ hf)]
    exact ⟨rfl, by rw [bucketOf_ddEnsure, bucketOf_ddEnsure]; exact hf⟩
  · intro hk2 hne hd1 hd2
    obtain ⟨h1ok, h1b, h1other⟩ := register_success st kind name obj hk hd1
    have hb2 : bucketOf (register st kind name obj).1 kind2 = bucketOf st kind2 :=
      h1other kind2 hne hk2
    have hd2a : (bucketOf (register st kind name obj).1 kind2).contains name = false := by
      rw [hb2]; exact hd2
    obtain ⟨h2ok, h2b, h2other⟩ :=
      register_success (register st kind name obj).1 kind2 name obj2 hk2 hd2a
    refine ⟨h1ok, h2ok, ?_, ?_⟩
    · rw [h2other kind (fun h => hne h.symm) hk, h1b, Dict.find?_insert, if_pos rfl]
    · rw [h2b, hb2, Dict.find?_insert, if_pos rfl]

/-- C7 witness: a duplicate on `storeAB`, a fresh name under two kinds,
and the reserved kind. -/
theorem C7_witness :
    (register storeAB "model" "x" ctorCatchAll).2 =
      Except.error (RegError.duplicateRegistration "x") ∧
    (register (register storeAB "model" "y" ctorPlain).1 "trainer" "y" ctorReg).2 =
      Except.ok ctorReg ∧
    (register storeAB "class_map" "x" ctorCatchAll).1 = storeAB := by
  have h1 := C7_registration_guards storeAB "model" "trainer" "x" ctorCatchAll ctorReg
    ctorAB (by decide)
  have h2 := C7_registration_guards storeAB "model" "trainer" "y" ctorPlain ctorReg
    ctorAB (by decide)
  refine ⟨(h1.1 (by decide)).1, ?_, h1.2.2.2⟩
  exact (h2.2.1 (by decide) (by decide) (by decide) (by decide)).2.1

/-- C8: neither `instantiate` nor `construct` mutates the configuration
dict object of the caller: the merge of line 183 allocates a fresh dict
and the pops of line 203 write to that fresh dict only, so the original
heap cell is unchanged — also when keys are filtered out or a warning is
emitted. -/
theorem C8_caller_config_not_mutated (h : Heap) (st : Store) (kind : String)
    (cfg : HeapConfigArg) (c : Ctor) (a : Nat) (unused : List String)
    (kwargs : Dict Value) (ha : a < h.cells.length) :
    ((instantiateH h c a unused kwargs).1).get a = h.get a ∧
    ((constructH h st kind cfg unused kwargs).1).get a = h.get a :=
  ⟨instantiateH_frame h c a a unused kwargs ha,
   constructH_frame h st kind cfg unused kwargs a ha⟩

/-- C8 witness: a one-cell heap holding the config of the caller; the cell is
intact after both operations (the `construct` run filters `c` out and
warns, yet the dict of the caller is untouched). -/
theorem C8_witness :
    ((instantiateH ⟨[⟨[("name", Value.str "x"), ("c", Value.int 3)]⟩]⟩ ctorAB 0 []
        Dict.empty).1).get 0 =
      (⟨[⟨[("name", Value.str "x"), ("c", Value.int 3)]⟩]⟩ : Heap).get 0 ∧
    ((constructH ⟨[⟨[("name", Value.str "x"), ("c", Value.int 3)]⟩]⟩ storeAB "model"
        (.ref 0) [] Dict.empty).1).get 0 =
      (⟨[⟨[("name", Value.str "x"), ("c", Value.int 3)]⟩]⟩ : Heap).get 0 :=
  C8_caller_config_not_mutated ⟨[⟨[("name", Value.str "x"), ("c", Value.int 3)]⟩]⟩
    storeAB "model" (.ref 0) ctorAB 0 [] Dict.empty (by decide)

/-- C9: `register_class_ref` with the name omitted fails its precondition
on a type without the identity capability; with the capability the
registration succeeds and `lookup_class_ref (typeName c)` returns the
same constructor; and `lookup_class_ref` of an unregistered identity
raises `UnknownClassError`. -/
theorem C9_class_ref_round_trip (st : Store) (c : Ctor) (n : String) :
    (c.isRegistrableSubclass = false →
       Registrable.register_class_ref st c none =
         (st, .error .notRegistrableSubclass)) ∧
    (c.isRegistrableSubclass = true →
       (Registrable.register_class_ref st c none).2 = .ok c ∧
       Registrable.lookup_class_ref (Registrable.register_class_ref st c none).1
         (typeName c) = .ok c) ∧
    ((bucketOf st "class_map").contains n = false →
       Registrable.lookup_class_ref st n = .error (.unknownClass n)) := by
  refine ⟨?_, ?_, ?_⟩
  · intro hf
    simp only [Registrable.register_class_ref]
    rw [if_neg (show ¬ c.isRegistrableSubclass = true by
      rw [hf]; exact fun h => Bool.noConfusion h)]
  · intro ht
    have hred : Registrable.register_class_ref st c none =
        (st.insert "class_map" ((bucketOf st "class_map").insert (typeName c) c),
         .ok c) := by
      simp only [Registrable.register_class_ref]
      rw [if_pos ht]
    rw [hred]
    refine ⟨rfl, ?_⟩
    simp only [Registrable.lookup_class_ref]
    rw [bucketOf_insert, if_pos rfl, Dict.find?_insert, if_pos rfl]
  · intro hn
    simp only [Registrable.lookup_class_ref]
    rw [Dict.find?_eq_none_of_contains_eq_false _ _ hn]

/-- C9 witness: `ctorPlain` is rejected, `ctorReg` round-trips through
the class map, and an unknown identity errors. -/
theorem C9_witness :
    Registrable.register_class_ref emptyStore ctorPlain none =
      (emptyStore, .error .notRegistrableSubclass) ∧
    Registrable.lookup_class_ref
      (Registrable.register_class_ref emptyStore ctorReg none).1 (typeName ctorReg) =
      .ok ctorReg ∧
    Registrable.lookup_class_ref emptyStore "nope" = .error (.unknownClass "nope") := by
  have h1 := C9_class_ref_round_trip emptyStore ctorPlain "nope"
  have h2 := C9_class_ref_round_trip emptyStore ctorReg "nope"
  exact ⟨h1.1 rfl, (h2.2.1 rfl).2, h1.2.2 (by decide)⟩

/-- C10: merely calling `load(kind, name)` — even if the returned
decorator is never applied — materialises buckets for `kind` and
`"class_map"` (empty when previously absent), so a subsequent `lookup`
under that kind raises the absent-name error rather than the
unregistered-kind error. -/
theorem C10_load_materialises_buckets (st : Store) (kind name : String)
    (hk : kind ≠ "class_map") :
    (load st kind name).2 = .ok () ∧
    ((load st kind name).1).contains kind = true ∧
    ((load st kind name).1).contains "class_map" = true ∧
    (st.contains kind = false →
       bucketOf (load st kind name).1 kind = Dict.empty) ∧
    (st.contains "class_map" = false →
       bucketOf (load st kind name).1 "class_map" = Dict.empty) ∧
    (st.contains kind = false →
       ∀ s, lookup (load st kind name).1 kind (.str s) =
         .error (.unknownName (Value.str s))) := by
  have hld : load st kind name = (ddEnsure (ddEnsure st kind) "class_map", .ok ()) := by
    unfold load
    rw [if_neg hk]
  rw [hld]
  have hck : (ddEnsure (ddEnsure st kind) "class_map").contains kind = true := by
    rw [contains_ddEnsure, contains_ddEnsure]
    simp
  refine ⟨rfl, hck, ?_, ?_, ?_, ?_⟩
  · rw [contains_ddEnsure]
    simp
  · intro hc
    rw [bucketOf_ddEnsure, bucketOf_ddEnsure]
    unfold bucketOf
    rw [Dict.find?_eq_none_of_contains_eq_false _ _ hc]
    rfl
  · intro hc
    rw [bucketOf_ddEnsure, bucketOf_ddEnsure]
    unfold bucketOf
    rw [Dict.find?_eq_none_of_contains_eq_false _ _ hc]
    rfl
  · intro hc s
    have hb : bucketOf (ddEnsure (ddEnsure st kind) "class_map") kind = Dict.empty := by
      rw [bucketOf_ddEnsure, bucketOf_ddEnsure]
      unfold bucketOf
      rw [Dict.find?_eq_none_of_contains_eq_false _ _ hc]
      rfl
    simp only [lookup, effectiveName]
    rw [if_pos hck, hb]
    rfl

/-- C10 witness: calling `load` on the empty store without applying the
decorator makes `lookup` report the absent-name error. -/
theorem C10_witness :
    (load emptyStore "widget" "w").2 = Except.ok () ∧
    ((load emptyStore "widget" "w").1).contains "widget" = true ∧
    lookup (load emptyStore "widget" "w").1 "widget" (.str "anything") =
      Except.error (RegError.unknownName (Value.str "anything")) := by
  have h := C10_load_materialises_buckets emptyStore "widget" "w" (by decide)
  exact ⟨h.1, h.2.1, h.2.2.2.2.2 (by decide) "anything"⟩

end Registry
